import Mathlib

/-!
Verification of the backtest-analysis core of the Rebalance-backtest
repository against its specification.

The analytical core consists of `PerformanceMetrics` (metrics.py) and
`BacktestAnalyzer` (analyzer.py).  Portfolio values are embedded as
`List ℚ` (exact rationals standing for the floating-point values), and
metrics that involve real powers or square roots live in `ℝ`.
Dictionaries returned by the Python code are embedded as association
lists `List (String × MVal)`.
-/

namespace Rebalance

/-- Mean of a list of rationals: `series.mean()` = sum / length
(`0/0 = 0` never arises at the call sites, which are guarded). -/
def mean (l : List ℚ) : ℚ := l.sum / l.length

/-- Minimum of a pandas series, `series.min()`; `0` on the empty series
(the empty case is never hit by the guarded call sites). -/
def listMin : List ℚ → ℚ
  | [] => 0
  | v :: t => t.foldl min v

/-- Period-over-period returns, `portfolio_values.pct_change().dropna()`:
`r_i = v_i / v_{i-1} - 1` for consecutive points, the first point dropped. -/
def pctChange (vs : List ℚ) : List ℚ :=
  List.zipWith (fun prev cur => cur / prev - 1) vs vs.tail

/-- Sample variance with `n - 1` degrees of freedom, the square of the
pandas `series.std()` when at least two samples exist.  (With fewer than
two samples pandas produces NaN; that case is tracked separately by
`seriesStd?` and `stdPos`.) -/
def sampleVariance (l : List ℚ) : ℚ :=
  if l.length < 2 then 0
  else ((l.map (fun x => (x - mean l) ^ 2)).sum) / ((l.length : ℚ) - 1)

/-- Pandas `series.std()` (ddof = 1): NaN (`none`) with fewer than two
samples, otherwise the square root of the sample variance. -/
noncomputable def seriesStd? (l : List ℚ) : Option ℝ :=
  if l.length < 2 then none else some (Real.sqrt (sampleVariance l))

/-- The test `series.std() > 0` of the Python code: pandas `std` is NaN
with fewer than two samples and `NaN > 0` is False, so the test holds
exactly when there are at least two samples and positive variance. -/
def stdPos (l : List ℚ) : Prop := 2 ≤ l.length ∧ 0 < sampleVariance l

instance (l : List ℚ) : Decidable (stdPos l) := by
  unfold stdPos
  infer_instance

/-! ## calculate_returns (metrics.py lines 27-51) -/

/-- Result dictionary of `calculate_returns`. -/
structure ReturnsResult where
  total_return : ℚ
  annualized_return : ℝ
  cagr : ℝ

/-- Line 32: `total_return = portfolio_values.iloc[-1] / portfolio_values.iloc[0] - 1`. -/
def totalReturn (vs : List ℚ) : ℚ :=
  vs.getLast?.getD 0 / vs.headD 0 - 1

/-- Lines 35-42: `years = len(portfolio_values) / 252` and
`annualized_return = (1 + total_return) ** (1 / years) - 1 if years > 0 else 0`. -/
noncomputable def annualizedReturn (vs : List ℚ) : ℝ :=
  let years : ℝ := (vs.length : ℝ) / 252
  if 0 < years then (1 + (totalReturn vs : ℝ)) ^ ((1 : ℝ) / years) - 1 else 0

/-- Embedding of `PerformanceMetrics.calculate_returns`: zeros for a series shorter
than 2, otherwise total return, annualized return and cagr (an alias of
annualized return, line 45). -/
noncomputable def calculateReturns (vs : List ℚ) : ReturnsResult :=
  if vs.length < 2 then ⟨0, 0, 0⟩
  else ⟨totalReturn vs, annualizedReturn vs, annualizedReturn vs⟩

/-! ## calculate_risk (metrics.py lines 53-89) -/

/-- Helper of the running maximum: the accumulator `m` is the maximum
seen so far. -/
def cummaxAux (m : ℚ) : List ℚ → List ℚ
  | [] => []
  | v :: t => max m v :: cummaxAux (max m v) t

/-- Line 70: `cummax = portfolio_values.cummax()`, the elementwise
running maximum seeded at the first value. -/
def cummax : List ℚ → List ℚ
  | [] => []
  | v :: t => cummaxAux v (v :: t)

/-- Line 71: `drawdown = (portfolio_values - cummax) / cummax`,
elementwise. -/
def drawdowns (vs : List ℚ) : List ℚ :=
  List.zipWith (fun v m => (v - m) / m) vs (cummax vs)

/-- Line 72: `max_drawdown = drawdown.min()`. -/
def maxDrawdown (vs : List ℚ) : ℚ := listMin (drawdowns vs)

/-- Loop of `_calculate_max_drawdown_duration` (lines 147-152): the
counter `cur` increments on each drawdown `< 0` (updating the running
maximum `mx`) and resets to `0` otherwise. -/
def ddDurationGo (cur mx : ℕ) : List ℚ → ℕ
  | [] => mx
  | d :: t => if d < 0 then ddDurationGo (cur + 1) (max mx (cur + 1)) t
              else ddDurationGo 0 mx t

/-- Embedding of `PerformanceMetrics._calculate_max_drawdown_duration` (lines 138-154). -/
def maxDrawdownDuration (vs : List ℚ) : ℕ :=
  ddDurationGo 0 0 (drawdowns vs)

/-- Line 78: `var_95 = np.percentile(returns, 5)` — numpy's default
linear-interpolation percentile: with the samples sorted ascending and
`h = (len - 1) * p / 100`, interpolate between the entries at positions
`floor h` and `floor h + 1`. -/
def percentileLin (p : ℚ) (l : List ℚ) : ℚ :=
  let s := l.insertionSort (· ≤ ·)
  let h : ℚ := ((l.length : ℚ) - 1) * p / 100
  let k : ℕ := (⌊h⌋).toNat
  let a := s.getD k 0
  let b := s.getD (k + 1) a
  a + (h - (k : ℚ)) * (b - a)

/-- The VaR at 95%: 5th percentile of the period returns. -/
def var95 (vs : List ℚ) : ℚ := percentileLin 5 (pctChange vs)

/-- Line 81: `cvar_95 = returns[returns <= var_95].mean() if
len(returns[returns <= var_95]) > 0 else var_95`. -/
def cvar95 (vs : List ℚ) : ℚ :=
  let r := pctChange vs
  let v := var95 vs
  let ds := r.filter (fun x => decide (x ≤ v))
  if 0 < ds.length then mean ds else v

/-- Line 67: `volatility = returns.std() * np.sqrt(252)`; `none` stands
for the NaN that pandas produces when only one return exists. -/
noncomputable def volatilityStat? (vs : List ℚ) : Option ℝ :=
  (seriesStd? (pctChange vs)).map (fun s => s * Real.sqrt 252)

/-! ## calculate_ratios (metrics.py lines 91-136) -/

/-- Lines 100-108: the Sharpe ratio.  `excess_returns = returns - daily_rf`
and `sharpe = excess_returns.mean() / returns.std() * sqrt(252)` when
`returns.std() > 0`, else `0`.  The denominator is the std of the plain
returns, not of the excess returns. -/
noncomputable def sharpe_ratio (rf : ℚ) (vs : List ℚ) : ℝ :=
  if vs.length < 2 then 0
  else
    let r := pctChange vs
    let excess := r.map (fun x => x - rf / 252)
    if stdPos r then
      ((mean excess : ℝ) / Real.sqrt (sampleVariance r)) * Real.sqrt 252
    else 0

/-- Lines 110-115: the Sortino ratio.  `downside = returns[returns < 0]`;
the ratio is `excess.mean() / downside.std() * sqrt(252)` when the
downside set is non-empty with positive std (pandas std being NaN on a
single sample, the test fails then), else `0`. -/
noncomputable def sortino_ratio (rf : ℚ) (vs : List ℚ) : ℝ :=
  if vs.length < 2 then 0
  else
    let r := pctChange vs
    let excess := r.map (fun x => x - rf / 252)
    let downside := r.filter (fun x => decide (x < 0))
    if 0 < downside.length ∧ stdPos downside then
      ((mean excess : ℝ) / Real.sqrt (sampleVariance downside)) * Real.sqrt 252
    else 0

/-- Lines 118-120: the Calmar branch recomputes
`max_drawdown = abs(drawdown.min())` from its own cummax/drawdown pass. -/
def calmarMaxDrawdown (vs : List ℚ) : ℚ := |listMin (drawdowns vs)|

/-- Lines 122-125: the Calmar branch recomputes the annualized return
(`(1 + total_return) ** (1 / years) - 1 if years > 0 else 0`). -/
noncomputable def calmarAnnualizedReturn (vs : List ℚ) : ℝ :=
  let years : ℝ := (vs.length : ℝ) / 252
  if 0 < years then (1 + (totalReturn vs : ℝ)) ^ ((1 : ℝ) / years) - 1 else 0

/-- Lines 127-130: `calmar_ratio = annualized_return / max_drawdown if
max_drawdown > 0 else 0` (inside the length guard of lines 93-98). -/
noncomputable def calmar_ratio (vs : List ℚ) : ℝ :=
  if vs.length < 2 then 0
  else if 0 < calmarMaxDrawdown vs then
    calmarAnnualizedReturn vs / (calmarMaxDrawdown vs : ℝ)
  else 0

/-! ## Dictionary-level embedding (analyzer.py) -/

/-- Scalar value stored in a metric report: a rational, a real, a
string, or pandas/numpy NaN. -/
inductive MVal where
  | num (q : ℚ)
  | rval (r : ℝ)
  | str (s : String)
  | nan

/-- Dictionary returned by `calculate_returns`. -/
noncomputable def calculateReturnsD (vs : List ℚ) : List (String × MVal) :=
  if vs.length < 2 then
    [("total_return", .num 0), ("annualized_return", .num 0), ("cagr", .num 0)]
  else
    [("total_return", .num (totalReturn vs)),
     ("annualized_return", .rval (annualizedReturn vs)),
     ("cagr", .rval (annualizedReturn vs))]

/-- Dictionary returned by `calculate_risk`. -/
noncomputable def calculateRiskD (vs : List ℚ) : List (String × MVal) :=
  if vs.length < 2 then
    [("volatility", .num 0), ("max_drawdown", .num 0),
     ("max_drawdown_duration", .num 0), ("var_95", .num 0), ("cvar_95", .num 0)]
  else
    [("volatility", match volatilityStat? vs with | some x => .rval x | none => .nan),
     ("max_drawdown", .num (maxDrawdown vs)),
     ("max_drawdown_duration", .num (maxDrawdownDuration vs)),
     ("var_95", .num (var95 vs)),
     ("cvar_95", .num (cvar95 vs))]

/-- Dictionary returned by `calculate_ratios`. -/
noncomputable def calculateRatiosD (rf : ℚ) (vs : List ℚ) : List (String × MVal) :=
  if vs.length < 2 then
    [("sharpe_ratio", .num 0), ("sortino_ratio", .num 0), ("calmar_ratio", .num 0)]
  else
    [("sharpe_ratio", .rval ( sharpe_ratio rf vs)),
     ("sortino_ratio", .rval ( sortino_ratio rf vs)),
     ("calmar_ratio", .rval ( calmar_ratio vs))]

/-- Embedding of `PerformanceMetrics.calculate_all`: union of the three dictionaries
(their key sets are disjoint, so dict-merge is list append). -/
noncomputable def calculateAllD (rf : ℚ) (vs : List ℚ) : List (String × MVal) :=
  calculateReturnsD vs ++ calculateRiskD vs ++ calculateRatiosD rf vs

/-- Raw snapshot record: both fields may be absent. -/
structure RawSnapshot where
  timestamp? : Option String
  totalValue? : Option ℚ
deriving DecidableEq

/-- Raw trade record: every field may be absent. -/
structure RawTrade where
  timestamp? : Option String
  symbol? : Option String
  side? : Option String
  quantity? : Option ℚ
  price? : Option ℚ
  fee? : Option ℚ
  value? : Option ℚ
deriving DecidableEq

/-- A row of the trade DataFrame built by `get_trades` (lines 57-65):
each raw field with its zero/empty default. -/
structure TradeRecord where
  timestamp : String
  symbol : String
  side : String
  quantity : ℚ
  price : ℚ
  fee : ℚ
  value : ℚ
deriving DecidableEq

/-- Field mapping of lines 57-65 of analyzer.py. -/
def mkTradeRecord (t : RawTrade) : TradeRecord :=
  ⟨t.timestamp?.getD "", t.symbol?.getD "", t.side?.getD "",
   t.quantity?.getD 0, t.price?.getD 0, t.fee?.getD 0, t.value?.getD 0⟩

/-- The list of DataFrame rows built by the loop of `get_trades`. -/
def getTradesRecords (ts : List RawTrade) : List TradeRecord :=
  ts.map mkTradeRecord

/-- Modelled from the spec: the pandas `to_datetime` conversion applied
to the timestamp column on line 69 of analyzer.py is library code absent
from the repository.  Per the spec's interface section the timestamps
are ISO-8601 strings; `to_datetime` with its default error policy turns
an empty string into NaT but raises on a non-empty string it cannot
parse.  Parseability is kept abstract as the predicate `parseOk`. -/
def toDatetimeColumn (parseOk : String → Bool) (col : List String) :
    Except Unit (List String) :=
  if col.all (fun s => s == "" || parseOk s) then .ok col else .error ()

/-- Embedding of `BacktestAnalyzer.get_trades` (lines 49-70): an empty ledger gives
an empty DataFrame; otherwise the rows are built with per-field
defaults and the timestamp column is converted with `pd.to_datetime`,
which raises (`Except.error`) on an unparseable non-empty timestamp. -/
def getTrades (parseOk : String → Bool) (ts : List RawTrade) :
    Except Unit (List TradeRecord) :=
  if ts.isEmpty then .ok []
  else
    let recs := getTradesRecords ts
    (toDatetimeColumn parseOk (recs.map TradeRecord.timestamp)).map (fun _ => recs)

/-- Embedding of `BacktestAnalyzer.get_portfolio_values` (lines 28-47): for each
snapshot, the timestamp is fetched with default `''`; a falsy (empty)
timestamp skips the record, and parse failure of
`ts.replace('Z', '+00:00')` is swallowed by `except: pass`, also
skipping the record.  On success the value (default `0`) is appended. -/
def getPortfolioValues (parseOk : String → Bool) (snaps : List RawSnapshot) : List ℚ :=
  snaps.filterMap (fun s =>
    let ts := s.timestamp?.getD ""
    if ts ≠ "" then
      (if parseOk (ts.replace "Z" "+00:00") then some (s.totalValue?.getD 0) else none)
    else none)

/-- Summary mapping: the three fields read by `calculate_all_metrics`,
each possibly absent. -/
structure Summary where
  strategy_name? : Option String
  initial_capital? : Option ℚ
  final_value? : Option ℚ
deriving DecidableEq

/-- Lines 87-91 of analyzer.py: trade statistics added when the trade
DataFrame is non-empty. -/
def tradeStats (recs : List TradeRecord) : List (String × MVal) :=
  [("total_trades", .num recs.length),
   ("total_fees", .num (recs.map TradeRecord.fee).sum),
   ("buy_trades", .num ((recs.filter (fun t => t.side == "BUY")).length)),
   ("sell_trades", .num ((recs.filter (fun t => t.side == "SELL")).length)),
   ("avg_trade_value", .num (mean (recs.map TradeRecord.value)))]

/-- Lines 94-97 of analyzer.py: summary fields with their defaults. -/
def summaryStats (s : Summary) : List (String × MVal) :=
  [("strategy_name", .str (s.strategy_name?.getD "Unknown")),
   ("initial_capital", .num (s.initial_capital?.getD 0)),
   ("final_value", .num (s.final_value?.getD 0))]

/-- Embedding of `BacktestAnalyzer.calculate_all_metrics` (lines 76-99): empty value
series short-circuits to the empty report; otherwise the metric
dictionary is extended with trade statistics (only when the ledger is
non-empty) and the summary fields.  The risk-free rate is the
constructor default `0.02` (line 21 of analyzer.py).  `get_trades` can
raise, which propagates. -/
noncomputable def calculateAllMetrics (parseOk : String → Bool)
    (snaps : List RawSnapshot) (trades : List RawTrade) (summ : Summary) :
    Except Unit (List (String × MVal)) :=
  let pv := getPortfolioValues parseOk snaps
  if pv.isEmpty then .ok []
  else
    match getTrades parseOk trades with
    | .error e => .error e
    | .ok recs =>
      let m := calculateAllD (1 / 50) pv
      let m2 := m ++ (if recs.isEmpty then [] else tradeStats recs)
      .ok (m2 ++ summaryStats summ)

/-! ## Theorems -/

/-! ### Helper lemmas on folds, running maxima and the duration scan -/

theorem foldl_min_le_init (t : List ℚ) : ∀ v : ℚ, t.foldl min v ≤ v := by
  induction t with
  | nil => intro v; simp
  | cons a t ih =>
    intro v
    simpa using le_trans (ih (min v a)) (min_le_left v a)

theorem foldl_min_le_mem (t : List ℚ) : ∀ v x : ℚ, x ∈ t → t.foldl min v ≤ x := by
  induction t with
  | nil => intro v x hx; simp at hx
  | cons a t ih =>
    intro v x hx
    rcases List.mem_cons.1 hx with rfl | hx
    · simpa using le_trans (foldl_min_le_init t (min v x)) (min_le_right v x)
    · simpa using ih (min v a) x hx

theorem foldl_min_cases (t : List ℚ) : ∀ v : ℚ, t.foldl min v = v ∨ t.foldl min v ∈ t := by
  induction t with
  | nil => intro v; left; rfl
  | cons a t ih =>
    intro v
    rcases ih (min v a) with h | h
    · rcases min_choice v a with hm | hm
      · left; simpa [hm] using h
      · right; simp only [List.foldl_cons]; rw [h, hm]; exact List.mem_cons_self a t
    · right; exact List.mem_cons_of_mem a (by simpa using h)

theorem listMin_le (l : List ℚ) (x : ℚ) (hx : x ∈ l) : listMin l ≤ x := by
  cases l with
  | nil => simp at hx
  | cons v t =>
    rcases List.mem_cons.1 hx with rfl | hx
    · exact foldl_min_le_init t x
    · exact foldl_min_le_mem t v x hx

theorem listMin_mem (l : List ℚ) (h : l ≠ []) : listMin l ∈ l := by
  cases l with
  | nil => exact absurd rfl h
  | cons v t =>
    rcases foldl_min_cases t v with h' | h'
    · show t.foldl min v ∈ _; rw [h']; exact List.mem_cons_self v t
    · exact List.mem_cons_of_mem v h'

theorem cummaxAux_length (m : ℚ) (l : List ℚ) : (cummaxAux m l).length = l.length := by
  induction l generalizing m with
  | nil => rfl
  | cons v t ih => simp [cummaxAux, ih]

theorem cummax_length (vs : List ℚ) : (cummax vs).length = vs.length := by
  cases vs with
  | nil => rfl
  | cons v t => simp [cummax, cummaxAux, cummaxAux_length]

theorem drawdowns_length (vs : List ℚ) : (drawdowns vs).length = vs.length := by
  unfold drawdowns
  rw [List.length_zipWith, cummax_length, Nat.min_self]

theorem cummaxAux_eq (l : List ℚ) : ∀ m : ℚ,
    cummaxAux m l = (List.range l.length).map (fun i => (l.take (i + 1)).foldl max m) := by
  induction l with
  | nil => intro m; rfl
  | cons v t ih =>
    intro m
    show max m v :: cummaxAux (max m v) t = _
    rw [ih (max m v)]
    rw [List.length_cons, List.range_succ_eq_map, List.map_cons, List.map_map]
    rfl

theorem zipWith_nonpos_of_cummaxAux (l : List ℚ) : ∀ m : ℚ, 0 < m → (∀ v ∈ l, 0 < v) →
    ∀ d ∈ List.zipWith (fun v mm => (v - mm) / mm) l (cummaxAux m l), d ≤ 0 := by
  induction l with
  | nil => intro m _ _ d hd; simp at hd
  | cons v t ih =>
    intro m hm hpos d hd
    simp only [cummaxAux, List.zipWith_cons_cons, List.mem_cons] at hd
    rcases hd with rfl | hd
    · have h1 : v - max m v ≤ 0 := sub_nonpos.2 (le_max_right m v)
      have h2 : (0 : ℚ) ≤ max m v := le_of_lt (lt_max_of_lt_left hm)
      exact div_nonpos_of_nonpos_of_nonneg h1 h2
    · exact ih (max m v) (lt_max_of_lt_left hm)
        (fun x hx => hpos x (List.mem_cons_of_mem v hx)) d hd

theorem drawdowns_nonpos (vs : List ℚ) (hpos : ∀ v ∈ vs, 0 < v) :
    ∀ d ∈ drawdowns vs, d ≤ 0 := by
  cases vs with
  | nil => intro d hd; simp [drawdowns] at hd
  | cons v t =>
    have hv : 0 < v := hpos v (List.mem_cons_self v t)
    exact zipWith_nonpos_of_cummaxAux (v :: t) v hv hpos

theorem zipWith_self_eq_map (f : ℚ → ℚ → ℚ) (l : List ℚ) :
    List.zipWith f l l = l.map (fun v => f v v) := by
  induction l with
  | nil => rfl
  | cons v t ih => simp [ih]

theorem cummaxAux_of_chain (l : List ℚ) : ∀ m : ℚ, List.Chain' (· < ·) l →
    (∀ h ∈ l.head?, m ≤ h) → cummaxAux m l = l := by
  induction l with
  | nil => intro m _ _; rfl
  | cons v t ih =>
    intro m hch hm
    have hmv : m ≤ v := hm v rfl
    have hch' := List.chain'_cons'.1 hch
    have hmax : max m v = v := max_eq_right hmv
    show max m v :: cummaxAux (max m v) t = v :: t
    rw [hmax, ih v hch'.2 (fun h hh => le_of_lt (hch'.1 h hh))]

theorem cummax_of_chain (vs : List ℚ) (hch : List.Chain' (· < ·) vs) : cummax vs = vs := by
  cases vs with
  | nil => rfl
  | cons v t =>
    refine cummaxAux_of_chain (v :: t) v hch ?_
    intro h hh
    rw [List.head?_cons, Option.mem_def] at hh
    exact le_of_eq (Option.some.inj hh)

theorem ddDurationGo_zeros (l : List ℚ) : ∀ cur mx : ℕ, (∀ d ∈ l, ¬ d < 0) →
    ddDurationGo cur mx l = mx := by
  induction l with
  | nil => intro cur mx _; rfl
  | cons d t ih =>
    intro cur mx h
    have hd : ¬ d < 0 := h d (List.mem_cons_self d t)
    show (if d < 0 then _ else _) = mx
    rw [if_neg hd]
    exact ih 0 mx (fun x hx => h x (List.mem_cons_of_mem d hx))

theorem ddDurationGo_le (l : List ℚ) : ∀ cur mx : ℕ,
    ddDurationGo cur mx l ≤ max mx (cur + l.length) := by
  induction l with
  | nil => intro cur mx; exact le_max_left mx cur
  | cons d t ih =>
    intro cur mx
    show (if d < 0 then _ else _) ≤ _
    split
    · refine le_trans (ih (cur + 1) (max mx (cur + 1))) ?_
      simp only [max_le_iff, le_max_iff, List.length_cons]
      omega
    · refine le_trans (ih 0 mx) ?_
      simp only [max_le_iff, le_max_iff, List.length_cons]
      omega

theorem cummax_eq_prefixMax (vs : List ℚ) (hpos : ∀ v ∈ vs, 0 < v) :
    cummax vs = (List.range vs.length).map (fun i => (vs.take (i + 1)).foldl max 0) := by
  cases vs with
  | nil => rfl
  | cons v t =>
    have hv : (0 : ℚ) ≤ v := le_of_lt (hpos v (List.mem_cons_self v t))
    show cummaxAux v (v :: t) = _
    rw [cummaxAux_eq]
    refine List.map_congr_left ?_
    intro i _
    show ((v :: t).take (i + 1)).foldl max v = ((v :: t).take (i + 1)).foldl max 0
    rw [List.take_succ_cons]
    show (t.take i).foldl max (max v v) = (t.take i).foldl max (max 0 v)
    rw [max_self, max_eq_right hv]

theorem listMin_all_zero (l : List ℚ) (hne : l ≠ []) (h : ∀ x ∈ l, x = 0) :
    listMin l = 0 :=
  h _ (listMin_mem l hne)

theorem drawdowns_of_chain (vs : List ℚ) (_hpos : ∀ v ∈ vs, 0 < v)
    (hch : List.Chain' (· < ·) vs) : drawdowns vs = vs.map (fun _ => (0 : ℚ)) := by
  unfold drawdowns
  rw [cummax_of_chain vs hch, zipWith_self_eq_map]
  refine List.map_congr_left ?_
  intro a _
  simp

/-- C10: with positive values the drawdown at the first point is 0 (the
running maximum is seeded at the first value), so the consecutive
negative-drawdown counter is reset at the first point and the maximum
drawdown duration is at most `n - 1`. -/
theorem claim_C10 : ∀ vs : List ℚ, vs ≠ [] → (∀ v ∈ vs, 0 < v) →
    (drawdowns vs).headD 0 = 0 ∧ maxDrawdownDuration vs ≤ vs.length - 1 := by
  intro vs hne _hpos
  obtain ⟨v, t, rfl⟩ := List.exists_cons_of_ne_nil hne
  have hdd : drawdowns (v :: t) =
      0 :: List.zipWith (fun x m => (x - m) / m) t (cummaxAux v t) := by
    show List.zipWith _ (v :: t) (cummaxAux v (v :: t)) = _
    show List.zipWith _ (v :: t) (max v v :: cummaxAux (max v v) t) = _
    rw [max_self, List.zipWith_cons_cons, sub_self, zero_div]
  refine ⟨by rw [hdd]; rfl, ?_⟩
  show ddDurationGo 0 0 (drawdowns (v :: t)) ≤ _
  rw [hdd]
  have hstep : ddDurationGo 0 0 ((0 : ℚ) :: List.zipWith (fun x m => (x - m) / m) t (cummaxAux v t)) =
      ddDurationGo 0 0 (List.zipWith (fun x m => (x - m) / m) t (cummaxAux v t)) := by
    show (if (0 : ℚ) < 0 then _ else _) = _
    rw [if_neg (lt_irrefl (0 : ℚ))]
  rw [hstep]
  refine le_trans (ddDurationGo_le _ 0 0) ?_
  rw [List.length_zipWith, cummaxAux_length]
  simp

/-- Witness for C10 at the concrete series `[100, 90]`. -/
theorem claim_C10_witness :
    (drawdowns [100, 90]).headD 0 = 0 ∧
    maxDrawdownDuration [100, 90] ≤ [100, (90 : ℚ)].length - 1 :=
  claim_C10 [100, 90] (by decide) (by decide)

/-- C2: with positive values, the drawdown sequence is elementwise
`(v_i - max(v_0..v_i)) / max(v_0..v_i)`, always nonpositive; the maximum
drawdown is the least drawdown (a member of the sequence, below every
member, and 0 when no drawdown is negative); on `[100, 90, 80, 95, 100]`
the drawdowns are `[0, -1/10, -1/5, -1/20, 0]` with maximum drawdown
`-1/5` and duration `3`; and on a strictly increasing series both the
maximum drawdown and the duration are 0. -/
theorem claim_C2 :
    (∀ vs : List ℚ, 2 ≤ vs.length → (∀ v ∈ vs, 0 < v) →
      drawdowns vs = List.zipWith (fun v m => (v - m) / m) vs
          ((List.range vs.length).map (fun i => (vs.take (i + 1)).foldl max 0)) ∧
      (∀ d ∈ drawdowns vs, d ≤ 0) ∧
      (∀ d ∈ drawdowns vs, maxDrawdown vs ≤ d) ∧
      maxDrawdown vs ∈ drawdowns vs ∧
      ((∀ d ∈ drawdowns vs, ¬ d < 0) → maxDrawdown vs = 0)) ∧
    drawdowns [100, 90, 80, 95, 100] = [0, -1/10, -1/5, -1/20, 0] ∧
    maxDrawdown [100, 90, 80, 95, 100] = -1/5 ∧
    maxDrawdownDuration [100, 90, 80, 95, 100] = 3 ∧
    (∀ vs : List ℚ, 2 ≤ vs.length → (∀ v ∈ vs, 0 < v) → List.Chain' (· < ·) vs →
      maxDrawdown vs = 0 ∧ maxDrawdownDuration vs = 0) := by
  refine ⟨?_,
    by norm_num [drawdowns, cummax, cummaxAux, max_def, List.zipWith_cons_cons],
    by norm_num [maxDrawdown, drawdowns, cummax, cummaxAux, max_def, min_def, listMin,
      List.zipWith_cons_cons],
    by norm_num [maxDrawdownDuration, drawdowns, cummax, cummaxAux, max_def, ddDurationGo,
      List.zipWith_cons_cons], ?_⟩
  · intro vs hlen hpos
    have hne : drawdowns vs ≠ [] := by
      refine List.ne_nil_of_length_pos ?_
      rw [drawdowns_length]
      omega
    refine ⟨?_, drawdowns_nonpos vs hpos, ?_, ?_, ?_⟩
    · unfold drawdowns
      rw [cummax_eq_prefixMax vs hpos]
    · intro d hd
      exact listMin_le _ d hd
    · exact listMin_mem _ hne
    · intro hnneg
      have hmem := listMin_mem _ hne
      exact le_antisymm (drawdowns_nonpos vs hpos _ hmem) (not_lt.1 (hnneg _ hmem))
  · intro vs hlen hpos hch
    have hdd := drawdowns_of_chain vs hpos hch
    have hvne : vs ≠ [] := by
      refine List.ne_nil_of_length_pos ?_
      omega
    constructor
    · unfold maxDrawdown
      rw [hdd]
      refine listMin_all_zero _ (by simpa using hvne) ?_
      intro x hx
      rcases List.mem_map.1 hx with ⟨a, _, rfl⟩
      rfl
    · unfold maxDrawdownDuration
      rw [hdd]
      refine ddDurationGo_zeros _ 0 0 ?_
      intro d hd
      rcases List.mem_map.1 hd with ⟨a, _, rfl⟩
      simp

/-- Witness for C2 at the concrete series `[100, 90]` (general part) and
`[100, 110]` (strictly increasing part). -/
theorem claim_C2_witness :
    (∀ d ∈ drawdowns [100, 90], d ≤ 0) ∧
    maxDrawdown [100, 110] = 0 ∧ maxDrawdownDuration [100, 110] = 0 := by
  refine ⟨(claim_C2.1 [100, 90] (by decide) (by decide)).2.1, ?_, ?_⟩
  · exact (claim_C2.2.2.2.2 [100, 110] (by decide) (by decide)
      (by norm_num [List.chain'_cons, List.chain'_singleton])).1
  · exact (claim_C2.2.2.2.2 [100, 110] (by decide) (by decide)
      (by norm_num [List.chain'_cons, List.chain'_singleton])).2

theorem mean_le_of_forall_le (l : List ℚ) (t : ℚ) (hne : l ≠ [])
    (h : ∀ x ∈ l, x ≤ t) : mean l ≤ t := by
  have hlen : (0 : ℚ) < (l.length : ℚ) := by exact_mod_cast List.length_pos.2 hne
  have hsum : l.sum ≤ l.length • t := List.sum_le_card_nsmul l t h
  rw [nsmul_eq_mul] at hsum
  unfold mean
  rw [div_le_iff₀ hlen]
  linarith

theorem mean_const (l : List ℚ) (c : ℚ) (hne : l ≠ []) (h : ∀ x ∈ l, x = c) :
    mean l = c := by
  have h0 : 0 < l.length := List.length_pos.2 hne
  have hlen : ((l.length : ℚ)) ≠ 0 := by exact_mod_cast h0.ne'
  have hsum : l.sum = l.length • c := List.sum_eq_card_nsmul l c h
  unfold mean
  rw [hsum, nsmul_eq_mul, mul_div_cancel_left₀ _ hlen]

theorem sampleVariance_const (l : List ℚ) (c : ℚ) (h : ∀ x ∈ l, x = c) :
    sampleVariance l = 0 := by
  unfold sampleVariance
  split
  · rfl
  · rename_i hlen
    have hne : l ≠ [] := by
      intro h'
      rw [h'] at hlen
      exact hlen (by simp)
    have hm : mean l = c := mean_const l c hne h
    have hz : (l.map (fun x => (x - mean l) ^ 2)).sum = 0 := by
      apply List.sum_eq_zero
      intro y hy
      rcases List.mem_map.1 hy with ⟨x, hx, rfl⟩
      rw [hm, h x hx, sub_self]
      ring
    rw [hz, zero_div]

/-- C3: `var_95` is the linear-interpolation 5th percentile of the
period returns; when some return lies at or below it, `cvar_95` is the
mean of those returns and hence at most `var_95`; when none does,
`cvar_95` equals `var_95` exactly. -/
theorem claim_C3 : ∀ vs : List ℚ, 2 ≤ vs.length → (∀ v ∈ vs, 0 < v) →
    var95 vs = percentileLin 5 (pctChange vs) ∧
    ((pctChange vs).filter (fun x => decide (x ≤ var95 vs)) ≠ [] →
      cvar95 vs = mean ((pctChange vs).filter (fun x => decide (x ≤ var95 vs))) ∧
      cvar95 vs ≤ var95 vs) ∧
    ((pctChange vs).filter (fun x => decide (x ≤ var95 vs)) = [] →
      cvar95 vs = var95 vs) := by
  intro vs _hlen _hpos
  have hd : cvar95 vs =
      if 0 < ((pctChange vs).filter (fun x => decide (x ≤ var95 vs))).length then
        mean ((pctChange vs).filter (fun x => decide (x ≤ var95 vs)))
      else var95 vs := rfl
  refine ⟨rfl, ?_, ?_⟩
  · intro hne
    have hpos' : 0 < ((pctChange vs).filter (fun x => decide (x ≤ var95 vs))).length :=
      List.length_pos.2 hne
    have hmean : cvar95 vs = mean ((pctChange vs).filter (fun x => decide (x ≤ var95 vs))) := by
      rw [hd, if_pos hpos']
    refine ⟨hmean, ?_⟩
    rw [hmean]
    refine mean_le_of_forall_le _ _ hne ?_
    intro x hx
    exact of_decide_eq_true (List.mem_filter.1 hx).2
  · intro hemp
    rw [hd, hemp]
    simp

/-- Witness for C3 at the concrete series `[100, 90, 110]`, whose
downside set `{r ≤ var_95}` is non-empty. -/
theorem claim_C3_witness :
    cvar95 [100, 90, 110] =
      mean ((pctChange [100, 90, 110]).filter (fun x => decide (x ≤ var95 [100, 90, 110]))) ∧
    cvar95 [100, 90, 110] ≤ var95 [100, 90, 110] :=
  (claim_C3 [100, 90, 110] (by decide) (by decide)).2.1
    (by norm_num [var95, percentileLin, pctChange, List.insertionSort, List.orderedInsert,
      List.zipWith_cons_cons, List.filter])

/-- C4: the Sharpe ratio is the mean excess return divided by the
sample standard deviation of the plain period returns (not of the
excess returns), scaled by `sqrt 252`, whenever that standard deviation
test passes; and it is exactly 0 whenever all period returns are
identical, regardless of their common value. -/
theorem claim_C4 : ∀ (rf : ℚ) (vs : List ℚ), 2 ≤ vs.length → (∀ v ∈ vs, 0 < v) →
    (stdPos (pctChange vs) →
      sharpe_ratio rf vs =
        ((mean ((pctChange vs).map (fun x => x - rf / 252)) : ℚ) : ℝ) /
          Real.sqrt (sampleVariance (pctChange vs)) * Real.sqrt 252) ∧
    (∀ c : ℚ, (∀ r ∈ pctChange vs, r = c) → sharpe_ratio rf vs = 0) := by
  intro rf vs hlen _hpos
  have hne2 : ¬ vs.length < 2 := by omega
  constructor
  · intro hstd
    unfold sharpe_ratio
    rw [if_neg hne2]
    show (if stdPos (pctChange vs) then
        ((mean ((pctChange vs).map (fun x => x - rf / 252)) : ℚ) : ℝ) /
          Real.sqrt (sampleVariance (pctChange vs)) * Real.sqrt 252
      else 0) = _
    rw [if_pos hstd]
  · intro c hc
    have hvar : sampleVariance (pctChange vs) = 0 := sampleVariance_const _ c hc
    have hnstd : ¬ stdPos (pctChange vs) := by
      intro h
      obtain ⟨-, h2⟩ := h
      rw [hvar] at h2
      exact lt_irrefl 0 h2
    unfold sharpe_ratio
    rw [if_neg hne2]
    show (if stdPos (pctChange vs) then
        ((mean ((pctChange vs).map (fun x => x - rf / 252)) : ℚ) : ℝ) /
          Real.sqrt (sampleVariance (pctChange vs)) * Real.sqrt 252
      else 0) = _
    rw [if_neg hnstd]

/-- Witness for C4 at the constant series `[100, 100, 100]` (all period
returns are 0, so the Sharpe ratio collapses to 0). -/
theorem claim_C4_witness : sharpe_ratio (1 / 50) [100, 100, 100] = 0 :=
  (claim_C4 (1 / 50) [100, 100, 100] (by decide) (by decide)).2 0
    (by norm_num [pctChange, List.zipWith_cons_cons])

/-- C5: the Calmar branch's independently recomputed `|max_drawdown|`
and annualized return agree exactly with `calculate_risk`'s
`|max_drawdown|` and `calculate_returns`' `annualized_return`, and the
Calmar ratio is their quotient when `|max_drawdown| > 0`, else 0. -/
theorem claim_C5 : ∀ vs : List ℚ, 2 ≤ vs.length → (∀ v ∈ vs, 0 < v) →
    calmarMaxDrawdown vs = |maxDrawdown vs| ∧
    calmarAnnualizedReturn vs = (calculateReturns vs).annualized_return ∧
    (0 < calmarMaxDrawdown vs →
      calmar_ratio vs = calmarAnnualizedReturn vs / (calmarMaxDrawdown vs : ℝ)) ∧
    (calmarMaxDrawdown vs = 0 → calmar_ratio vs = 0) := by
  intro vs hlen _hpos
  have hne2 : ¬ vs.length < 2 := by omega
  refine ⟨rfl, ?_, ?_, ?_⟩
  · unfold calculateReturns
    rw [if_neg hne2]
    rfl
  · intro h
    unfold calmar_ratio
    rw [if_neg hne2, if_pos h]
  · intro h
    unfold calmar_ratio
    rw [if_neg hne2, if_neg (by rw [h]; exact lt_irrefl 0)]

/-- Witness for C5 at the concrete series `[100, 150]` (no drawdown, so
the Calmar ratio falls back to 0). -/
theorem claim_C5_witness :
    calmarMaxDrawdown [100, 150] = |maxDrawdown [100, 150]| ∧
    calmar_ratio [100, 150] = 0 := by
  have h := claim_C5 [100, 150] (by decide) (by decide)
  refine ⟨h.1, h.2.2.2 ?_⟩
  norm_num [calmarMaxDrawdown, drawdowns, cummax, cummaxAux, max_def, min_def, listMin,
    List.zipWith_cons_cons]

theorem pctChange_length (vs : List ℚ) : (pctChange vs).length = vs.length - 1 := by
  unfold pctChange
  rw [List.length_zipWith, List.length_tail]
  omega

theorem cummaxAux_pos (l : List ℚ) : ∀ m : ℚ, 0 < m → ∀ x ∈ cummaxAux m l, 0 < x := by
  induction l with
  | nil => intro m _ x hx; simp [cummaxAux] at hx
  | cons v t ih =>
    intro m hm x hx
    rcases List.mem_cons.1 hx with rfl | hx
    · exact lt_max_of_lt_left hm
    · exact ih (max m v) (lt_max_of_lt_left hm) x hx

theorem cummax_pos (vs : List ℚ) (hpos : ∀ v ∈ vs, 0 < v) : ∀ m ∈ cummax vs, 0 < m := by
  cases vs with
  | nil => intro m hm; simp [cummax] at hm
  | cons v t => exact cummaxAux_pos (v :: t) v (hpos v (List.mem_cons_self v t))

theorem lookup_append (a : String) (l₁ l₂ : List (String × MVal)) :
    (l₁ ++ l₂).lookup a = (l₁.lookup a).orElse (fun _ => l₂.lookup a) := by
  induction l₁ with
  | nil => rfl
  | cons p t ih =>
    obtain ⟨k, v⟩ := p
    cases hak : (a == k) with
    | true => simp [List.lookup, hak, Option.orElse]
    | false => simp [List.lookup, hak, ih]

theorem lookup_eq_none_of_keys (a : String) (l : List (String × MVal))
    (h : ∀ p ∈ l, p.1 ≠ a) : l.lookup a = none := by
  induction l with
  | nil => rfl
  | cons p t ih =>
    obtain ⟨k, v⟩ := p
    have hk : k ≠ a := h (k, v) (List.mem_cons_self _ _)
    have hak : (a == k) = false := beq_eq_false_iff_ne.2 (fun he => hk he.symm)
    simp only [List.lookup, hak]
    exact ih (fun q hq => h q (List.mem_cons_of_mem _ hq))

theorem lookup_none_of_keys_eq (a : String) (l : List (String × MVal)) (ks : List String)
    (hk : l.map Prod.fst = ks) (ha : a ∉ ks) : l.lookup a = none := by
  refine lookup_eq_none_of_keys a l ?_
  intro p hp hpa
  exact ha (hk ▸ (hpa ▸ List.mem_map_of_mem Prod.fst hp))

theorem keys_calculateReturnsD (vs : List ℚ) :
    (calculateReturnsD vs).map Prod.fst = ["total_return", "annualized_return", "cagr"] := by
  unfold calculateReturnsD
  split <;> rfl

theorem keys_calculateRiskD (vs : List ℚ) :
    (calculateRiskD vs).map Prod.fst =
      ["volatility", "max_drawdown", "max_drawdown_duration", "var_95", "cvar_95"] := by
  unfold calculateRiskD
  split <;> rfl

theorem keys_calculateRatiosD (rf : ℚ) (vs : List ℚ) :
    (calculateRatiosD rf vs).map Prod.fst =
      ["sharpe_ratio", "sortino_ratio", "calmar_ratio"] := by
  unfold calculateRatiosD
  split <;> rfl

theorem keys_calculateAllD (rf : ℚ) (vs : List ℚ) :
    (calculateAllD rf vs).map Prod.fst =
      ["total_return", "annualized_return", "cagr", "volatility", "max_drawdown",
       "max_drawdown_duration", "var_95", "cvar_95", "sharpe_ratio", "sortino_ratio",
       "calmar_ratio"] := by
  unfold calculateAllD
  rw [List.map_append, List.map_append, keys_calculateReturnsD, keys_calculateRiskD,
    keys_calculateRatiosD]
  rfl

theorem keys_summaryStats (s : Summary) :
    (summaryStats s).map Prod.fst = ["strategy_name", "initial_capital", "final_value"] := rfl

theorem keys_tradeStats (recs : List TradeRecord) :
    (tradeStats recs).map Prod.fst =
      ["total_trades", "total_fees", "buy_trades", "sell_trades", "avg_trade_value"] := rfl

theorem getTrades_ok (pk : String → Bool) (ts : List RawTrade) (recs : List TradeRecord)
    (h : getTrades pk ts = Except.ok recs) : recs = getTradesRecords ts := by
  unfold getTrades at h
  by_cases he : ts.isEmpty
  · rw [if_pos he] at h
    have : ts = [] := by
      cases ts with
      | nil => rfl
      | cons a l => simp [List.isEmpty] at he
    rw [this]
    exact (Except.ok.inj h).symm
  · rw [if_neg he] at h
    simp only [] at h
    cases hc : toDatetimeColumn pk ((getTradesRecords ts).map TradeRecord.timestamp) with
    | ok c =>
      rw [hc] at h
      exact (Except.ok.inj h).symm
    | error e =>
      rw [hc] at h
      exact absurd h (by simp [Except.map])

theorem calculateAllMetrics_ok (pk : String → Bool) (snaps : List RawSnapshot)
    (trades : List RawTrade) (summ : Summary) (recs : List TradeRecord)
    (ht : getTrades pk trades = Except.ok recs)
    (hpv : getPortfolioValues pk snaps ≠ []) :
    calculateAllMetrics pk snaps trades summ =
      Except.ok (calculateAllD (1 / 50) (getPortfolioValues pk snaps) ++
        (if recs.isEmpty then [] else tradeStats recs) ++ summaryStats summ) := by
  unfold calculateAllMetrics
  have hem : ¬ ((getPortfolioValues pk snaps).isEmpty = true) := by
    intro h
    exact hpv (List.isEmpty_iff.1 h)
  rw [if_neg hem, ht]

theorem report_lookup_eq_tradeStats (pv : List ℚ) (recs : List TradeRecord) (summ : Summary)
    (k : String)
    (h1 : k ∉ ["total_return", "annualized_return", "cagr", "volatility", "max_drawdown",
      "max_drawdown_duration", "var_95", "cvar_95", "sharpe_ratio", "sortino_ratio",
      "calmar_ratio"]) :
    (calculateAllD (1 / 50) pv ++ tradeStats recs ++ summaryStats summ).lookup k =
      ((tradeStats recs).lookup k).orElse (fun _ => (summaryStats summ).lookup k) := by
  rw [lookup_append, lookup_append, lookup_none_of_keys_eq k _ _ (keys_calculateAllD _ _) h1]
  rfl

theorem report_lookup_eq_summary (pv : List ℚ) (mid : List (String × MVal)) (summ : Summary)
    (k : String)
    (h1 : k ∉ ["total_return", "annualized_return", "cagr", "volatility", "max_drawdown",
      "max_drawdown_duration", "var_95", "cvar_95", "sharpe_ratio", "sortino_ratio",
      "calmar_ratio"])
    (hmid : mid.lookup k = none) :
    (calculateAllD (1 / 50) pv ++ mid ++ summaryStats summ).lookup k =
      (summaryStats summ).lookup k := by
  rw [lookup_append, lookup_append, lookup_none_of_keys_eq k _ _ (keys_calculateAllD _ _) h1]
  show (mid.lookup k).orElse _ = _
  rw [hmid]
  rfl

/-- C6: with a non-empty value series and a non-empty trade ledger, the
final report maps `total_trades` to the ledger length, `total_fees` to
the summed fees, `buy_trades`/`sell_trades` to the case-sensitive side
counts, and `avg_trade_value` to the mean traded value; with an empty
ledger none of those five keys is present at all. -/
theorem claim_C6 :
    (∀ (pk : String → Bool) (snaps : List RawSnapshot) (trades : List RawTrade)
        (summ : Summary) (recs : List TradeRecord),
      getTrades pk trades = Except.ok recs →
      getPortfolioValues pk snaps ≠ [] →
      trades ≠ [] →
      calculateAllMetrics pk snaps trades summ =
        Except.ok (calculateAllD (1 / 50) (getPortfolioValues pk snaps) ++
          tradeStats recs ++ summaryStats summ) ∧
      recs.length = trades.length ∧
      (calculateAllD (1 / 50) (getPortfolioValues pk snaps) ++ tradeStats recs ++
          summaryStats summ).lookup "total_trades" = some (.num recs.length) ∧
      (calculateAllD (1 / 50) (getPortfolioValues pk snaps) ++ tradeStats recs ++
          summaryStats summ).lookup "total_fees" =
        some (.num (recs.map TradeRecord.fee).sum) ∧
      (calculateAllD (1 / 50) (getPortfolioValues pk snaps) ++ tradeStats recs ++
          summaryStats summ).lookup "buy_trades" =
        some (.num ((recs.filter (fun t => t.side == "BUY")).length)) ∧
      (calculateAllD (1 / 50) (getPortfolioValues pk snaps) ++ tradeStats recs ++
          summaryStats summ).lookup "sell_trades" =
        some (.num ((recs.filter (fun t => t.side == "SELL")).length)) ∧
      (calculateAllD (1 / 50) (getPortfolioValues pk snaps) ++ tradeStats recs ++
          summaryStats summ).lookup "avg_trade_value" =
        some (.num (mean (recs.map TradeRecord.value)))) ∧
    (∀ (pk : String → Bool) (snaps : List RawSnapshot) (summ : Summary),
      getPortfolioValues pk snaps ≠ [] →
      calculateAllMetrics pk snaps [] summ =
        Except.ok (calculateAllD (1 / 50) (getPortfolioValues pk snaps) ++ summaryStats summ) ∧
      ∀ k ∈ (["total_trades", "total_fees", "buy_trades", "sell_trades",
          "avg_trade_value"] : List String),
        (calculateAllD (1 / 50) (getPortfolioValues pk snaps) ++
          summaryStats summ).lookup k = none) := by
  constructor
  · intro pk snaps trades summ recs ht hpv htr
    have hr := getTrades_ok pk trades recs ht
    have hrne : recs.isEmpty = false := by
      rw [hr]
      obtain ⟨a, l, rfl⟩ := List.exists_cons_of_ne_nil htr
      rfl
    have hok := calculateAllMetrics_ok pk snaps trades summ recs ht hpv
    have hmid : (if recs.isEmpty then ([] : List (String × MVal)) else tradeStats recs) =
        tradeStats recs := by
      rw [hrne]
      rfl
    rw [hmid] at hok
    refine ⟨hok, ?_, ?_, ?_, ?_, ?_, ?_⟩
    · rw [hr]
      exact List.length_map trades mkTradeRecord
    · rw [report_lookup_eq_tradeStats _ _ _ _ (by decide)]
      rfl
    · rw [report_lookup_eq_tradeStats _ _ _ _ (by decide)]
      rfl
    · rw [report_lookup_eq_tradeStats _ _ _ _ (by decide)]
      rfl
    · rw [report_lookup_eq_tradeStats _ _ _ _ (by decide)]
      rfl
    · rw [report_lookup_eq_tradeStats _ _ _ _ (by decide)]
      rfl
  · intro pk snaps summ hpv
    have ht : getTrades pk ([] : List RawTrade) = Except.ok [] := rfl
    have hok := calculateAllMetrics_ok pk snaps [] summ [] ht hpv
    rw [show (if ([] : List TradeRecord).isEmpty then ([] : List (String × MVal))
        else tradeStats []) = [] from rfl, List.append_nil] at hok
    refine ⟨hok, ?_⟩
    intro k hk
    rw [lookup_append, lookup_none_of_keys_eq k _ _ (keys_calculateAllD _ _) ?_]
    · show (summaryStats summ).lookup k = none
      refine lookup_none_of_keys_eq k _ _ (keys_summaryStats _) ?_
      simp only [List.mem_cons, List.not_mem_nil] at hk
      rcases hk with rfl | rfl | rfl | rfl | rfl | h
      · decide
      · decide
      · decide
      · decide
      · decide
      · exact absurd h (by simp)
    · simp only [List.mem_cons, List.not_mem_nil] at hk
      rcases hk with rfl | rfl | rfl | rfl | rfl | h
      · decide
      · decide
      · decide
      · decide
      · decide
      · exact absurd h (by simp)

/-- Witness for C6 at a two-trade ledger (one BUY of value 100, one
SELL of value 80, each with fee 1) and a one-point value series. -/
theorem claim_C6_witness :
    (calculateAllD (1 / 50) (getPortfolioValues (fun _ => true) [⟨some "t", some 100⟩]) ++
      tradeStats (getTradesRecords
        [⟨none, none, some "BUY", none, none, some 1, some 100⟩,
         ⟨none, none, some "SELL", none, none, some 1, some 80⟩]) ++
      summaryStats ⟨none, none, none⟩).lookup "avg_trade_value" = some (.num 90) ∧
    (calculateAllD (1 / 50) (getPortfolioValues (fun _ => true) [⟨some "t", some 100⟩]) ++
      tradeStats (getTradesRecords
        [⟨none, none, some "BUY", none, none, some 1, some 100⟩,
         ⟨none, none, some "SELL", none, none, some 1, some 80⟩]) ++
      summaryStats ⟨none, none, none⟩).lookup "total_fees" = some (.num 2) := by
  have h := claim_C6.1 (fun _ => true) [⟨some "t", some 100⟩]
    [⟨none, none, some "BUY", none, none, some 1, some 100⟩,
     ⟨none, none, some "SELL", none, none, some 1, some 80⟩]
    ⟨none, none, none⟩
    (getTradesRecords
      [⟨none, none, some "BUY", none, none, some 1, some 100⟩,
       ⟨none, none, some "SELL", none, none, some 1, some 80⟩])
    rfl (by decide) (by decide)
  constructor
  · refine h.2.2.2.2.2.2.trans ?_
    have hm : mean ((getTradesRecords
        [⟨none, none, some "BUY", none, none, some 1, some 100⟩,
         ⟨none, none, some "SELL", none, none, some 1, some 80⟩]).map TradeRecord.value) =
        90 := by
      norm_num [mean, getTradesRecords, mkTradeRecord]
    rw [hm]
  · refine h.2.2.2.1.trans ?_
    have hf : ((getTradesRecords
        [⟨none, none, some "BUY", none, none, some 1, some 100⟩,
         ⟨none, none, some "SELL", none, none, some 1, some 80⟩]).map TradeRecord.fee).sum =
        2 := by
      norm_num [getTradesRecords, mkTradeRecord]
    rw [hf]

/-- C7 (amended): whenever the extracted value series is non-empty (and
trade extraction succeeds), the final report carries `strategy_name`,
`initial_capital` and `final_value` from the summary with defaults
"Unknown"/0/0; when the extracted series is empty the report is the
empty mapping, carrying no keys at all. -/
theorem claim_C7_amended :
    (∀ (pk : String → Bool) (snaps : List RawSnapshot) (trades : List RawTrade)
        (summ : Summary) (recs : List TradeRecord),
      getTrades pk trades = Except.ok recs →
      getPortfolioValues pk snaps ≠ [] →
      calculateAllMetrics pk snaps trades summ =
        Except.ok (calculateAllD (1 / 50) (getPortfolioValues pk snaps) ++
          (if recs.isEmpty then [] else tradeStats recs) ++ summaryStats summ) ∧
      (calculateAllD (1 / 50) (getPortfolioValues pk snaps) ++
          (if recs.isEmpty then [] else tradeStats recs) ++ summaryStats summ).lookup
        "strategy_name" = some (.str (summ.strategy_name?.getD "Unknown")) ∧
      (calculateAllD (1 / 50) (getPortfolioValues pk snaps) ++
          (if recs.isEmpty then [] else tradeStats recs) ++ summaryStats summ).lookup
        "initial_capital" = some (.num (summ.initial_capital?.getD 0)) ∧
      (calculateAllD (1 / 50) (getPortfolioValues pk snaps) ++
          (if recs.isEmpty then [] else tradeStats recs) ++ summaryStats summ).lookup
        "final_value" = some (.num (summ.final_value?.getD 0))) ∧
    (∀ (pk : String → Bool) (snaps : List RawSnapshot) (trades : List RawTrade)
        (summ : Summary),
      getPortfolioValues pk snaps = [] →
      calculateAllMetrics pk snaps trades summ = Except.ok []) := by
  constructor
  · intro pk snaps trades summ recs ht hpv
    have hok := calculateAllMetrics_ok pk snaps trades summ recs ht hpv
    have hmid : ∀ k : String, k ∉ ["total_trades", "total_fees", "buy_trades",
        "sell_trades", "avg_trade_value"] →
        (if recs.isEmpty then ([] : List (String × MVal)) else tradeStats recs).lookup k =
          none := by
      intro k hk
      split
      · rfl
      · exact lookup_none_of_keys_eq k _ _ (keys_tradeStats _) hk
    refine ⟨hok, ?_, ?_, ?_⟩
    · rw [report_lookup_eq_summary _ _ _ _ (by decide) (hmid _ (by decide))]
      rfl
    · rw [report_lookup_eq_summary _ _ _ _ (by decide) (hmid _ (by decide))]
      rfl
    · rw [report_lookup_eq_summary _ _ _ _ (by decide) (hmid _ (by decide))]
      rfl
  · intro pk snaps trades summ h
    unfold calculateAllMetrics
    rw [if_pos (by rw [h]; rfl)]

/-- Counterexample to C7 as stated: with no snapshots at all the code
returns the empty report, so `strategy_name` is absent even though the
summary carries a name. -/
theorem claim_C7_cex :
    calculateAllMetrics (fun _ => false) [] [] ⟨some "S", some 5, some 6⟩ = Except.ok [] ∧
    (([] : List (String × MVal)).lookup "strategy_name") = none :=
  ⟨rfl, rfl⟩

/-- Witness for C7 (amended) with an absent strategy name defaulting to
"Unknown". -/
theorem claim_C7_witness :
    (calculateAllD (1 / 50) (getPortfolioValues (fun _ => true) [⟨some "t", some 100⟩]) ++
      (if ([] : List TradeRecord).isEmpty then [] else tradeStats []) ++
      summaryStats ⟨none, none, none⟩).lookup "strategy_name" = some (.str "Unknown") :=
  (claim_C7_amended.1 (fun _ => true) [⟨some "t", some 100⟩] [] ⟨none, none, none⟩ []
    rfl (by decide)).2.1

/-- C8: the record-building loop of `get_trades` keeps every trade with
per-field defaults, but the subsequent `pd.to_datetime` on the timestamp
column raises on a non-empty unparseable timestamp, so ledger extraction
can raise — contradicting the spec's never-raise policy. -/
theorem claim_C8_bug : ∀ pk : String → Bool, pk "not-a-date" = false →
    getTrades pk [⟨some "not-a-date", none, none, none, none, none, none⟩] =
      Except.error () := by
  intro pk hpk
  unfold getTrades
  rw [if_neg (by decide)]
  simp only []
  have hcol : toDatetimeColumn pk
      ((getTradesRecords [⟨some "not-a-date", none, none, none, none, none, none⟩]).map
        TradeRecord.timestamp) = Except.error () := by
    unfold toDatetimeColumn
    rw [if_neg (by simp [getTradesRecords, mkTradeRecord, hpk])]
  rw [hcol]
  rfl

/-- Witness for C8 with the concrete always-failing parser. -/
theorem claim_C8_witness :
    getTrades (fun _ => false) [⟨some "not-a-date", none, none, none, none, none, none⟩] =
      Except.error () :=
  claim_C8_bug (fun _ => false) rfl

/-- C9 (amended): with positive values and length at least 3 all
denominators are nonzero and the volatility is a real number; at length
exactly 2 the volatility is NaN (pandas sample std of a single return);
in every case the arithmetic edge cases (zero variance, zero drawdown,
empty downside set) keep their explicit fallbacks. -/
theorem claim_C9_amended : ∀ (rf : ℚ) (vs : List ℚ), 2 ≤ vs.length → (∀ v ∈ vs, 0 < v) →
    vs.headD 0 ≠ 0 ∧
    (∀ m ∈ cummax vs, m ≠ 0) ∧
    (3 ≤ vs.length → (volatilityStat? vs).isSome) ∧
    (vs.length = 2 → volatilityStat? vs = none) ∧
    (sampleVariance (pctChange vs) = 0 → sharpe_ratio rf vs = 0) ∧
    ((pctChange vs).filter (fun x => decide (x < 0)) = [] → sortino_ratio rf vs = 0) ∧
    (calmarMaxDrawdown vs = 0 → calmar_ratio vs = 0) ∧
    ((pctChange vs).filter (fun x => decide (x ≤ var95 vs)) = [] →
      cvar95 vs = var95 vs) := by
  intro rf vs hlen hpos
  have hne2 : ¬ vs.length < 2 := by omega
  refine ⟨?_, ?_, ?_, ?_, ?_, ?_, ?_, ?_⟩
  · cases vs with
    | nil => simp at hlen
    | cons v t => exact (hpos v (List.mem_cons_self v t)).ne'
  · intro m hm
    exact (cummax_pos vs hpos m hm).ne'
  · intro h3
    have hr : ¬ (pctChange vs).length < 2 := by
      rw [pctChange_length]
      omega
    unfold volatilityStat? seriesStd?
    rw [if_neg hr]
    rfl
  · intro h2
    have hr : (pctChange vs).length < 2 := by
      rw [pctChange_length, h2]
      omega
    unfold volatilityStat? seriesStd?
    rw [if_pos hr]
    rfl
  · intro hvar
    have hnstd : ¬ stdPos (pctChange vs) := by
      intro h
      obtain ⟨-, h2⟩ := h
      rw [hvar] at h2
      exact lt_irrefl 0 h2
    unfold sharpe_ratio
    rw [if_neg hne2]
    show (if stdPos (pctChange vs) then
        ((mean ((pctChange vs).map (fun x => x - rf / 252)) : ℚ) : ℝ) /
          Real.sqrt (sampleVariance (pctChange vs)) * Real.sqrt 252
      else 0) = _
    rw [if_neg hnstd]
  · intro hemp
    unfold sortino_ratio
    rw [if_neg hne2]
    show (if 0 < ((pctChange vs).filter (fun x => decide (x < 0))).length ∧
        stdPos ((pctChange vs).filter (fun x => decide (x < 0))) then
        ((mean ((pctChange vs).map (fun x => x - rf / 252)) : ℚ) : ℝ) /
          Real.sqrt (sampleVariance ((pctChange vs).filter (fun x => decide (x < 0)))) *
          Real.sqrt 252
      else 0) = _
    rw [if_neg ?_]
    intro hand
    rw [hemp] at hand
    exact absurd hand.1 (by simp)
  · intro h
    unfold calmar_ratio
    rw [if_neg hne2, if_neg (by rw [h]; exact lt_irrefl 0)]
  · intro hemp
    have hd : cvar95 vs =
        if 0 < ((pctChange vs).filter (fun x => decide (x ≤ var95 vs))).length then
          mean ((pctChange vs).filter (fun x => decide (x ≤ var95 vs)))
        else var95 vs := rfl
    rw [hd, hemp]
    simp

/-- Counterexample to C9 as stated: on the two-point series `[100, 150]`
the volatility is NaN, since the sample standard deviation of the single
period return divides by zero. -/
theorem claim_C9_cex :
    volatilityStat? [100, 150] = none ∧
    (calculateRiskD [100, 150]).lookup "volatility" = some MVal.nan := by
  have h1 : volatilityStat? [100, 150] = none := by
    unfold volatilityStat? seriesStd?
    rw [if_pos (by rw [pctChange_length]; decide)]
    rfl
  refine ⟨h1, ?_⟩
  unfold calculateRiskD
  rw [if_neg (by decide), h1]
  rfl

/-- Witness for C9 (amended) at the concrete series `[100, 90, 110]`. -/
theorem claim_C9_witness :
    ([100, 90, (110 : ℚ)] : List ℚ).headD 0 ≠ 0 ∧
    (volatilityStat? [100, 90, 110]).isSome := by
  have h := claim_C9_amended (1 / 50) [100, 90, 110] (by decide) (by decide)
  exact ⟨h.1, h.2.2.1 (by decide)⟩

/-- C1: for a series of length at least 2 with nonzero first value,
`calculate_returns` yields `total_return = last/first - 1`,
`annualized_return = (1 + total_return)^(252/n) - 1` and
`cagr = annualized_return`; a series shorter than 2 yields all zeros;
and `total_return` of `[100, 150]` is exactly `1/2`. -/
theorem claim_C1 :
    (∀ vs : List ℚ, 2 ≤ vs.length → vs.headD 0 ≠ 0 →
      (calculateReturns vs).total_return = vs.getLast?.getD 0 / vs.headD 0 - 1 ∧
      (calculateReturns vs).annualized_return =
        (1 + ((vs.getLast?.getD 0 / vs.headD 0 - 1 : ℚ) : ℝ)) ^ ((252 : ℝ) / (vs.length : ℝ)) - 1 ∧
      (calculateReturns vs).cagr = (calculateReturns vs).annualized_return) ∧
    (calculateReturns [100, 150]).total_return = 1 / 2 ∧
    (∀ vs : List ℚ, vs.length < 2 → calculateReturns vs = ⟨0, 0, 0⟩) := by
  refine ⟨?_, ?_, ?_⟩
  · intro vs hlen _hfst
    have hnot : ¬ vs.length < 2 := by omega
    have hn : (0 : ℝ) < (vs.length : ℝ) := by
      have : 0 < vs.length := by omega
      exact_mod_cast this
    have hyears : (0 : ℝ) < (vs.length : ℝ) / 252 := by positivity
    refine ⟨?_, ?_, ?_⟩
    · simp [calculateReturns, hnot, totalReturn]
    · simp only [calculateReturns, hnot, if_false]
      show annualizedReturn vs = _
      unfold annualizedReturn
      simp only [hyears, if_true]
      rw [one_div_div]
      simp [totalReturn]
    · simp [calculateReturns, hnot]
  · norm_num [calculateReturns, totalReturn]
  · intro vs hlen
    simp [calculateReturns, hlen]

/-- Witness for C1 at the concrete series `[100, 150]`. -/
theorem claim_C1_witness :
    (calculateReturns [100, 150]).total_return =
        ([100, (150 : ℚ)].getLast?.getD 0 / [100, (150 : ℚ)].headD 0 - 1) ∧
    (calculateReturns [100, 150]).cagr = (calculateReturns [100, 150]).annualized_return := by
  have h := claim_C1.1 [100, 150] (by decide) (by decide)
  exact ⟨h.1, h.2.2⟩

end Rebalance
